import Mathlib

/-!
# zrepl: logging configuration parser

A shallow embedding of `cmd/config_logging.go` and of `zfs/jobid.go`, followed by
theorems about the embedded functions.

Conventions of the embedding

* A Go `error` is represented by its `Error()` text.  `errors.Wrap(err, msg)` of
  `github.com/pkg/errors` renders as `msg + ": " + err.Error()`, `errors.Errorf` as the
  formatted text.
* A Go function returning `(value, error)` whose callers look at the value only when the
  error is nil is embedded as a function into `Except String _`.  `parseLogging` keeps
  both Go results, `(c, err)`, as a pair of options.
* Calls that leave the repository's two source files (`mapstructure.Decode`,
  `logger.ParseLevel`, `time.ParseDuration`, `tls.LoadX509KeyPair`, `x509.SystemCertPool`,
  `ioutil.ReadFile`, `(*x509.CertPool).AppendCertsFromPEM`, the method set of the formatter
  types) are fields of an environment `Env`; theorems quantify over every environment.
-/

namespace Zrepl

/-! ## Dynamic values -/

/-- Go `interface{}` values of a decoded configuration tree. -/
inductive Value where
  | null : Value
  | bool (b : Bool) : Value
  | int (n : Int) : Value
  | str (s : String) : Value
  | list (xs : List Value) : Value
  | map (kvs : List (String × Value)) : Value

/-- The text printed by the `%T` verb for a dynamic value. -/
def Value.goTypeName : Value → String
  | .null => "<nil>"
  | .bool _ => "bool"
  | .int _ => "int"
  | .str _ => "string"
  | .list _ => "[]interface \x7b\x7d"
  | .map _ => "map[string]interface \x7b\x7d"

/-- Rendering of `errors.Wrap(err, message)`: the message, a colon, the cause. -/
def errorsWrap (err : String) (message : String) : String :=
  message ++ ": " ++ err

/-! ## Types of the `logger` and `cmd` packages used by the parser -/

/-- Modelled from the spec: `logger.Level`, declared in the `logger` package, which is not
among the source files.  The spec gives the ordered enumeration Debug < Info < Warn < Error. -/
inductive Level where
  | Debug | Info | Warn | Error
  deriving DecidableEq, Repr

/-- The three formatter types the parser instantiates. -/
inductive FormatterType where
  | HumanFormatter | LogfmtFormatter | JSONFormatter
  deriving DecidableEq, Repr

/-- Modelled from the spec: an `EntryFormatter` value.  The formatter types are declared
outside the source files; the spec describes a formatter as a strategy selected by name
with an optional "suppress metadata" mode.  `NoMetadata` is that mode, `false` in the
zero value `&T{}` the parser creates. -/
structure EntryFormatter where
  dynType : FormatterType
  NoMetadata : Bool
  deriving DecidableEq, Repr

/-- Modelled from the spec: the effect of `SetNoMetadata(noMetadata)` on a formatter that
has the method: the "suppress metadata" mode is set to the argument. -/
def EntryFormatter.SetNoMetadata (f : EntryFormatter) (noMetadata : Bool) : EntryFormatter :=
  { f with NoMetadata := noMetadata }

/-- The writable streams a `WriterOutlet` can be bound to. -/
inductive Writer where
  | Stdout | Stderr
  deriving DecidableEq, Repr

/-- An opaque client certificate (`tls.Certificate`). -/
structure Certificate where
  material : String
  deriving DecidableEq, Repr

/-- A certificate pool (`*x509.CertPool`), as the sequence of its certificates. -/
structure CertPool where
  certs : List String
  deriving DecidableEq, Repr

/-- The empty pool, `x509.NewCertPool()`. -/
def NewCertPool : CertPool := ⟨[]⟩

/-- The fields of `tls.Config` the parser sets. -/
structure TLSConfig where
  Certificates : List Certificate
  RootCAs : CertPool
  NameToCertificate : List (String × Certificate)
  deriving DecidableEq, Repr

/-- The struct `WriterOutlet{formatter, writer}`. -/
structure WriterOutlet where
  Formatter : EntryFormatter
  Writer : Writer
  deriving DecidableEq, Repr

/-- The fields of `TCPOutlet` the parser sets; `RetryInterval` is a `time.Duration`
in nanoseconds, `TLS` is `none` for the nil pointer. -/
structure TCPOutlet where
  Formatter : EntryFormatter
  Net : String
  Address : String
  RetryInterval : Int
  TLS : Option TLSConfig
  deriving DecidableEq, Repr

/-- The fields of `SyslogOutlet` the parser sets. -/
structure SyslogOutlet where
  Formatter : EntryFormatter
  RetryInterval : Int
  deriving DecidableEq, Repr

/-- A `logger.Outlet` value, by dynamic type: `WriterOutlet`, `*TCPOutlet`, `*SyslogOutlet`. -/
inductive Outlet where
  | writer (o : WriterOutlet)
  | tcp (o : TCPOutlet)
  | syslog (o : SyslogOutlet)
  deriving DecidableEq, Repr

/-- The formatter an outlet retains. -/
def Outlet.formatter : Outlet → EntryFormatter
  | .writer o => o.Formatter
  | .tcp o => o.Formatter
  | .syslog o => o.Formatter

/-- Modelled from the spec: `logger.Outlets`, declared in the `logger` package, which is
not among the source files.  The spec describes the registry as an ordered sequence of
(Outlet, minLevel) pairs whose insertion order is the configuration order. -/
structure Outlets where
  entries : List (Outlet × Level)
  deriving DecidableEq, Repr

/-- Modelled from the spec: `logger.NewOutlets()`, the empty registry. -/
def NewOutlets : Outlets := ⟨[]⟩

/-- Modelled from the spec: `Outlets.Add(outlet, minLevel)` appends one pair. -/
def Outlets.Add (os : Outlets) (outlet : Outlet) (minLevel : Level) : Outlets :=
  ⟨os.entries ++ [(outlet, minLevel)]⟩

structure LoggingConfig where
  Outlets : Outlets
  deriving DecidableEq, Repr

structure OutletCommon where
  MinLevel : Level
  Formatter : EntryFormatter
  deriving DecidableEq, Repr

/-! ## Decode targets -/

/-- The anonymous struct `in` of `parseOutlet`. -/
structure OutletIn where
  Outlet : String
  Level : String
  Format : String
  deriving DecidableEq, Repr

/-- The anonymous struct behind the `TLS` pointer of `parseTCPOutlet`. -/
structure TLSIn where
  CA : String
  Cert : String
  Key : String
  deriving DecidableEq, Repr

/-- The anonymous struct `in` of `parseTCPOutlet`; `TLS` is `none` for the nil pointer. -/
structure TCPIn where
  Net : String
  Address : String
  RetryInterval : String
  TLS : Option TLSIn
  deriving DecidableEq, Repr

/-- The anonymous struct `in` of `parseSyslogOutlet`. -/
structure SyslogIn where
  RetryInterval : String
  deriving DecidableEq, Repr

/-! ## Environment: everything the parser calls outside the source files -/

/-- The external functions used by the parser.  The four `decode*` fields are
`mapstructure.Decode` at the four target types it is called with; a Go slice target is
`none` when left nil.  `implementsSetNoMetadata` tells which formatter types satisfy the
interface `SetNoMetadataFormatter`. -/
structure Env where
  decodeList : Value → Except String (Option (List Value))
  decodeOutletIn : Value → Except String OutletIn
  decodeTCPIn : Value → Except String TCPIn
  decodeSyslogIn : Value → Except String SyslogIn
  ParseLevel : String → Except String Level
  ParseDuration : String → Except String Int
  LoadX509KeyPair : String → String → Except String Certificate
  SystemCertPool : Except String CertPool
  ReadFile : String → Except String String
  AppendCertsFromPEM : CertPool → String → CertPool × Bool
  BuildNameToCertificate : List Certificate → List (String × Certificate)
  implementsSetNoMetadata : FormatterType → Bool

/-- The `len` of a Go slice: zero for the nil slice. -/
def sliceLen (s : Option (List Value)) : Nat :=
  match s with
  | none => 0
  | some xs => xs.length

/-- The elements a `range` loop visits: none for the nil slice. -/
def sliceElems (s : Option (List Value)) : List Value :=
  match s with
  | none => []
  | some xs => xs

/-! ## The parser -/

def parseLogFormat (i : Value) : Except String EntryFormatter :=
  match i with
  | .str j =>
    if j = "human" then .ok ⟨.HumanFormatter, false⟩
    else if j = "logfmt" then .ok ⟨.LogfmtFormatter, false⟩
    else if j = "json" then .ok ⟨.JSONFormatter, false⟩
    else .error ("invalid log format: '" ++ j ++ "'")
  | _ => .error ("invalid log format: wrong type: " ++ i.goTypeName)

def parseStdoutOutlet (_i : Value) (common : OutletCommon) : Except String WriterOutlet :=
  .ok ⟨common.Formatter, Writer.Stdout⟩

/-- The body of the `if in.TLS != nil` block of `parseTCPOutlet`.  The block has its own
`err` (declared by `cert, err := tls.LoadX509KeyPair`); `blockErr` below is its value where
the block tests `err != nil && in.TLS.CA == ""`. -/
def parseTCPOutletTLS (env : Env) (t : TLSIn) : Except String TLSConfig :=
  match env.LoadX509KeyPair t.Cert t.Key with
  | .error err => .error (errorsWrap err "cannot load client cert")
  | .ok cert =>
    let roots : Except String (CertPool × Option String) :=
      if t.CA = "" then
        match env.SystemCertPool with
        | .error err => .error (errorsWrap err "cannot open system cert pool")
        | .ok pool => .ok (pool, none)
      else
        match env.ReadFile t.CA with
        | .error err => .error (errorsWrap err "cannot load CA cert")
        | .ok rootCAPEM =>
          let r := env.AppendCertsFromPEM NewCertPool rootCAPEM
          if r.2 = false then .error "cannot parse CA cert"
          else .ok (r.1, none)
    match roots with
    | .error err => .error err
    | .ok (rootCAs, blockErr) =>
      match blockErr with
      | some err =>
        if t.CA = "" then .error (errorsWrap err "cannot load root ca pool")
        else .ok ⟨[cert], rootCAs, env.BuildNameToCertificate [cert]⟩
      | none => .ok ⟨[cert], rootCAs, env.BuildNameToCertificate [cert]⟩

def parseTCPOutlet (env : Env) (i : Value) (common : OutletCommon) : Except String TCPOutlet :=
  match env.decodeTCPIn i with
  | .error err => .error (errorsWrap err "mapstructure error")
  | .ok inp =>
    match env.ParseDuration inp.RetryInterval with
    | .error err => .error (errorsWrap err "cannot parse 'retry_interval'")
    | .ok retryInterval =>
      match inp.TLS with
      | none => .ok ⟨common.Formatter, inp.Net, inp.Address, retryInterval, none⟩
      | some t =>
        match parseTCPOutletTLS env t with
        | .error err => .error err
        | .ok cfg => .ok ⟨common.Formatter, inp.Net, inp.Address, retryInterval, some cfg⟩

def parseSyslogOutlet (env : Env) (i : Value) (common : OutletCommon) :
    Except String SyslogOutlet :=
  match env.decodeSyslogIn i with
  | .error err => .error (errorsWrap err "mapstructure error")
  | .ok inp =>
    let formatter :=
      if env.implementsSetNoMetadata common.Formatter.dynType then
        common.Formatter.SetNoMetadata true
      else common.Formatter
    if inp.RetryInterval ≠ "" then
      match env.ParseDuration inp.RetryInterval with
      | .error err => .error (errorsWrap err "cannot parse 'retry_interval'")
      | .ok retryInterval => .ok ⟨formatter, retryInterval⟩
    else .ok ⟨formatter, 0⟩

def parseOutlet (env : Env) (i : Value) : Except String (Outlet × Level) :=
  match env.decodeOutletIn i with
  | .error err => .error (errorsWrap err "mapstructure error")
  | .ok inp =>
    if inp.Outlet = "" ∨ inp.Level = "" ∨ inp.Format = "" then
      .error "must specify 'outlet', 'level' and 'format' field"
    else
      match env.ParseLevel inp.Level with
      | .error err => .error (errorsWrap err "cannot parse 'level' field")
      | .ok minLevel =>
        match parseLogFormat (.str inp.Format) with
        | .error err => .error (errorsWrap err "cannot parse")
        | .ok formatter =>
          let common : OutletCommon := ⟨minLevel, formatter⟩
          if inp.Outlet = "stdout" then
            match parseStdoutOutlet i common with
            | .error err => .error err
            | .ok o => .ok (.writer o, common.MinLevel)
          else if inp.Outlet = "tcp" then
            match parseTCPOutlet env i common with
            | .error err => .error err
            | .ok o => .ok (.tcp o, common.MinLevel)
          else if inp.Outlet = "syslog" then
            match parseSyslogOutlet env i common with
            | .error err => .error err
            | .ok o => .ok (.syslog o, common.MinLevel)
          else .error ("unknown outlet type '" ++ inp.Outlet ++ "'")

/-- The variables the `for lei, le := range asList` loop of `parseLogging` updates. -/
structure LoopState where
  c : LoggingConfig
  syslogOutlets : Nat
  stdoutOutlets : Nat
  deriving DecidableEq, Repr

/-- The type switch of the loop body: counts `*SyslogOutlet` and `WriterOutlet` values. -/
def countOutlet (st : LoopState) (outlet : Outlet) : LoopState :=
  match outlet with
  | .syslog _ => { st with syslogOutlets := st.syslogOutlets + 1 }
  | .writer _ => { st with stdoutOutlets := st.stdoutOutlets + 1 }
  | .tcp _ => st

/-- The `for lei, le := range asList` loop of `parseLogging`, from index `lei` on: the
first entry that fails to parse ends the loop with the wrapped error. -/
def parseLoggingLoop (env : Env) : List Value → Nat → LoopState → Except String LoopState
  | [], _, st => .ok st
  | le :: rest, lei, st =>
    match parseOutlet env le with
    | .error err => .error (errorsWrap err ("cannot parse outlet #" ++ toString lei))
    | .ok (outlet, minLevel) =>
      let st1 := countOutlet st outlet
      parseLoggingLoop env rest (lei + 1) { st1 with c := ⟨st1.c.Outlets.Add outlet minLevel⟩ }

/-- The Go results `(c *LoggingConfig, err error)`; `none` is nil. -/
def parseLogging (env : Env) (i : Value) : Option LoggingConfig × Option String :=
  let c : LoggingConfig := ⟨NewOutlets⟩
  match env.decodeList i with
  | .error err => (none, some (errorsWrap err "mapstructure error"))
  | .ok asList =>
    if sliceLen asList = 0 then
      let out : WriterOutlet := ⟨⟨.HumanFormatter, false⟩, Writer.Stdout⟩
      (some ⟨c.Outlets.Add (.writer out) Level.Warn⟩, none)
    else
      match parseLoggingLoop env (sliceElems asList) 0 ⟨c, 0, 0⟩ with
      | .error err => (none, some err)
      | .ok st =>
        if st.syslogOutlets > 1 then
          (none, some "can only define one 'syslog' outlet")
        else if st.stdoutOutlets > 1 then
          (none, some "can only define one 'stdout' outlet")
        else (some st.c, none)

/-! ## A concrete environment

The definitions below fix one environment on which the parser can be evaluated: a decoder
for string-keyed maps that leaves the field of an absent key at its zero value, the level
names of the `logger` package, a finite table of duration strings, and small stand-ins for
the certificate functions. -/

/-- Decoding of one optional map value into a Go `string` field: an absent key or nil
leaves the zero value, a non-string value is a decoding error. -/
def sampleString (field : String) : Option Value → Except String String
  | none => .ok ""
  | some .null => .ok ""
  | some (.str s) => .ok s
  | some v => .error ("'" ++ field ++ "' expected type 'string', got unconvertible type '"
      ++ v.goTypeName ++ "'")

def sampleDecodeList : Value → Except String (Option (List Value))
  | .null => .ok none
  | .list xs => .ok (some xs)
  | v => .error ("source data must be an array or slice, got " ++ v.goTypeName)

def sampleDecodeOutletIn : Value → Except String OutletIn
  | .null => .ok ⟨"", "", ""⟩
  | .map kvs =>
    match sampleString "Outlet" (kvs.lookup "outlet") with
    | .error err => .error err
    | .ok o =>
      match sampleString "Level" (kvs.lookup "level") with
      | .error err => .error err
      | .ok l =>
        match sampleString "Format" (kvs.lookup "format") with
        | .error err => .error err
        | .ok f => .ok ⟨o, l, f⟩
  | v => .error ("expected a map, got '" ++ v.goTypeName ++ "'")

def sampleDecodeTLSIn : Option Value → Except String (Option TLSIn)
  | none => .ok none
  | some .null => .ok none
  | some (.map kvs) =>
    match sampleString "CA" (kvs.lookup "ca") with
    | .error err => .error err
    | .ok ca =>
      match sampleString "Cert" (kvs.lookup "cert") with
      | .error err => .error err
      | .ok cert =>
        match sampleString "Key" (kvs.lookup "key") with
        | .error err => .error err
        | .ok key => .ok (some ⟨ca, cert, key⟩)
  | some v => .error ("'TLS' expected a map, got '" ++ v.goTypeName ++ "'")

def sampleDecodeTCPIn : Value → Except String TCPIn
  | .null => .ok ⟨"", "", "", none⟩
  | .map kvs =>
    match sampleString "Net" (kvs.lookup "net") with
    | .error err => .error err
    | .ok n =>
      match sampleString "Address" (kvs.lookup "address") with
      | .error err => .error err
      | .ok a =>
        match sampleString "RetryInterval" (kvs.lookup "retry_interval") with
        | .error err => .error err
        | .ok r =>
          match sampleDecodeTLSIn (kvs.lookup "tls") with
          | .error err => .error err
          | .ok t => .ok ⟨n, a, r, t⟩
  | v => .error ("expected a map, got '" ++ v.goTypeName ++ "'")

def sampleDecodeSyslogIn : Value → Except String SyslogIn
  | .null => .ok ⟨""⟩
  | .map kvs =>
    match sampleString "RetryInterval" (kvs.lookup "retry_interval") with
    | .error err => .error err
    | .ok r => .ok ⟨r⟩
  | v => .error ("expected a map, got '" ++ v.goTypeName ++ "'")

def sampleParseLevel (s : String) : Except String Level :=
  if s = "debug" then .ok .Debug
  else if s = "info" then .ok .Info
  else if s = "warn" then .ok .Warn
  else if s = "error" then .ok .Error
  else .error ("unknown level '" ++ s ++ "'")

/-- A finite part of the graph of `time.ParseDuration` (nanoseconds); every other string
is rejected. -/
def sampleParseDuration (s : String) : Except String Int :=
  if s = "0" then .ok 0
  else if s = "500ms" then .ok 500000000
  else if s = "2s" then .ok 2000000000
  else if s = "10s" then .ok 10000000000
  else .error ("time: invalid duration " ++ s)

def sampleEnv : Env where
  decodeList := sampleDecodeList
  decodeOutletIn := sampleDecodeOutletIn
  decodeTCPIn := sampleDecodeTCPIn
  decodeSyslogIn := sampleDecodeSyslogIn
  ParseLevel := sampleParseLevel
  ParseDuration := sampleParseDuration
  LoadX509KeyPair := fun cert key =>
    if cert = "" ∨ key = "" then .error "open : no such file or directory"
    else .ok ⟨cert ++ "+" ++ key⟩
  SystemCertPool := .ok ⟨["system-root"]⟩
  ReadFile := fun path =>
    if path = "/etc/zrepl/ca.pem" then .ok "ca-1"
    else .error ("open " ++ path ++ ": no such file or directory")
  AppendCertsFromPEM := fun pool pem =>
    if pem = "" then (pool, false) else (⟨pool.certs ++ [pem]⟩, true)
  BuildNameToCertificate := fun _ => []
  implementsSetNoMetadata := fun t =>
    match t with
    | .HumanFormatter => true
    | .LogfmtFormatter => true
    | .JSONFormatter => false

/-- A configuration entry with the three common fields. -/
def entry (outlet level format : String) : Value :=
  .map [("outlet", .str outlet), ("level", .str level), ("format", .str format)]

/-! ## Vocabulary for the statements -/

/-- The outlet type name of an entry: the `Outlet` field of its decoded common fields
(the empty name when the entry does not decode). -/
def entryType (env : Env) (le : Value) : String :=
  match env.decodeOutletIn le with
  | .ok inp => inp.Outlet
  | .error _ => ""

/-- The number of entries of a list whose outlet type name is `name`. -/
def countType (env : Env) (name : String) (xs : List Value) : Nat :=
  xs.countP (fun le => decide (entryType env le = name))

/-- Whether a Go call returned a nil error. -/
def succeeds {α : Type} (r : Except String α) : Bool :=
  match r with
  | .ok _ => true
  | .error _ => false

/-- Every entry of the list parses successfully. -/
def allParse (env : Env) (xs : List Value) : Prop :=
  ∀ le ∈ xs, succeeds (parseOutlet env le) = true

instance (env : Env) (xs : List Value) : Decidable (allParse env xs) := by
  unfold allParse
  exact inferInstance

/-- The `(outlet, minLevel)` results of the entries that parse, in list order. -/
def parsedPairs (env : Env) (xs : List Value) : List (Outlet × Level) :=
  xs.filterMap (fun le =>
    match parseOutlet env le with
    | .ok r => some r
    | .error _ => none)

def Outlet.isWriter : Outlet → Bool
  | .writer _ => true
  | _ => false

def Outlet.isSyslog : Outlet → Bool
  | .syslog _ => true
  | _ => false

/-- Four entries that all parse: two of type stdout followed by two of type syslog. -/
def twoStdoutTwoSyslog : List Value :=
  [entry "stdout" "warn" "human", entry "stdout" "info" "json",
   entry "syslog" "warn" "human", entry "syslog" "error" "logfmt"]

/-- A tcp entry with the given level, format and retry interval and no `tls` block. -/
def tcpEntry (level format retry : String) : Value :=
  .map [("outlet", .str "tcp"), ("level", .str level), ("format", .str format),
    ("net", .str "tcp"), ("address", .str "logs.example.com:514"),
    ("retry_interval", .str retry)]

/-- An entry with valid level and format names, of type tcp or syslog, whose retry
interval is handed to `time.ParseDuration` and rejected by it with the error `d`. -/
def badRetryInterval (env : Env) (le : Value) (d : String) : Prop :=
  ∃ inp l f, env.decodeOutletIn le = .ok inp ∧ inp.Level ≠ "" ∧ inp.Format ≠ "" ∧
    env.ParseLevel inp.Level = .ok l ∧ parseLogFormat (.str inp.Format) = .ok f ∧
    ((inp.Outlet = "tcp" ∧ ∃ t, env.decodeTCPIn le = .ok t ∧
        env.ParseDuration t.RetryInterval = .error d) ∨
     (inp.Outlet = "syslog" ∧ ∃ s, env.decodeSyslogIn le = .ok s ∧ s.RetryInterval ≠ "" ∧
        env.ParseDuration s.RetryInterval = .error d))

/-- A syslog entry with the given level and format; `retry` is its `retry_interval` key
when present. -/
def syslogEntry (level format : String) (retry : Option String) : Value :=
  match retry with
  | none => .map [("outlet", .str "syslog"), ("level", .str level), ("format", .str format)]
  | some r => .map [("outlet", .str "syslog"), ("level", .str level), ("format", .str format),
      ("retry_interval", .str r)]

/-- A stdout entry that also carries a `retry_interval` that is no duration and a `tls`
block naming files that do not exist. -/
def stdoutEntryWithExtras : Value :=
  .map [("outlet", .str "stdout"), ("level", .str "info"), ("format", .str "logfmt"),
    ("retry_interval", .str "soon"),
    ("tls", .map [("ca", .str "/nonexistent/ca.pem"), ("cert", .str ""), ("key", .str "")])]

/-- A tcp entry with a `tls` block: client certificate and key paths, and the `ca` key when
`ca` is given. -/
def tcpTLSEntry (ca : Option String) : Value :=
  .map [("outlet", .str "tcp"), ("level", .str "info"), ("format", .str "json"),
    ("net", .str "tcp"), ("address", .str "logs.example.com:6514"),
    ("retry_interval", .str "10s"),
    ("tls", .map (
      match ca with
      | none => [("cert", .str "/etc/zrepl/client.crt"), ("key", .str "/etc/zrepl/client.key")]
      | some path => [("ca", .str path), ("cert", .str "/etc/zrepl/client.crt"),
          ("key", .str "/etc/zrepl/client.key")]))]

/-- Two stdout entries followed by an entry whose outlet type is unknown. -/
def twoStdoutThenUnparsable : List Value :=
  [entry "stdout" "warn" "human", entry "stdout" "info" "json", entry "udp" "warn" "human"]

/-- An environment that differs from `env` at most in what the outlet builders consult
beyond the common fields: whatever `parseOutlet` needs before it dispatches on the outlet
type, decoding of the common fields and `logger.ParseLevel`, is the same. -/
def sameUpToBuilders (env env2 : Env) : Prop :=
  env2.decodeOutletIn = env.decodeOutletIn ∧ env2.ParseLevel = env.ParseLevel

/-! ## Job identifiers (`zfs/jobid.go`) -/

/-- The type `JobID`; the zero value `JobID{}` has the empty `jid`. -/
structure JobID where
  jid : String
  deriving DecidableEq, Repr

/-- The outcome of a Go call that either returns a value or panics with a message. -/
inductive Outcome (α : Type) where
  | returned (a : α)
  | panicked (message : String)
  deriving DecidableEq, Repr

/-- The Go results `(JobID, error)`.  `NewDatasetPath`, declared elsewhere in the `zfs`
package, is a parameter; only the error it returns is looked at. -/
def MakeJobID (NewDatasetPath : String → Option String) (s : String) : JobID × Option String :=
  if s.utf8ByteSize = 0 then (⟨""⟩, some "must not be empty string")
  else
    match NewDatasetPath s with
    | some err => (⟨""⟩, some ("must be usable in a ZFS dataset path: " ++ err))
    | none => (⟨s⟩, none)

def MustMakeJobID (NewDatasetPath : String → Option String) (s : String) : Outcome JobID :=
  match MakeJobID NewDatasetPath s with
  | (_, some err) => .panicked err
  | (jid, none) => .returned jid

def JobID.String (j : JobID) : Outcome String :=
  if j.jid = "" then .panicked "use of uninitialized JobID"
  else .returned j.jid

def JobID.MustValidate (j : JobID) : Outcome Unit :=
  match j.String with
  | .panicked message => .panicked message
  | .returned _ => .returned ()

/-- A stand-in for `NewDatasetPath`, the dataset path constructor of the `zfs` package: it
rejects a name that contains `@` and a name that ends with a slash, and accepts every other
name. -/
def sampleNewDatasetPath (s : String) : Option String :=
  if '@' ∈ s.data then some "contains forbidden characters"
  else if s.data.getLast? = some '/' then some "must not end with a '/'"
  else none

/-! ## Shape of a successful `parseOutlet` -/

theorem succeeds_iff {α : Type} (r : Except String α) :
    succeeds r = true ↔ ∃ a, r = .ok a := by
  cases r <;> simp [succeeds]

/-- Inversion of a successful `parseOutlet`: the common fields decode and are non-empty, the
level and the format parse, and the outlet is what the builder chosen by the type name
returned. -/
theorem parseOutlet_ok_inv (env : Env) (le : Value) (o : Outlet) (l : Level)
    (h : parseOutlet env le = .ok (o, l)) :
    ∃ inp f, env.decodeOutletIn le = .ok inp ∧
      inp.Outlet ≠ "" ∧ inp.Level ≠ "" ∧ inp.Format ≠ "" ∧
      env.ParseLevel inp.Level = .ok l ∧ parseLogFormat (.str inp.Format) = .ok f ∧
      ((inp.Outlet = "stdout" ∧ o = .writer ⟨f, Writer.Stdout⟩) ∨
       (inp.Outlet = "tcp" ∧ ∃ t, parseTCPOutlet env le ⟨l, f⟩ = .ok t ∧ o = .tcp t) ∨
       (inp.Outlet = "syslog" ∧
         ∃ s, parseSyslogOutlet env le ⟨l, f⟩ = .ok s ∧ o = .syslog s)) := by
  unfold parseOutlet at h
  cases hd : env.decodeOutletIn le with
  | error e => simp [hd] at h
  | ok inp =>
    simp only [hd] at h
    by_cases hempty : inp.Outlet = "" ∨ inp.Level = "" ∨ inp.Format = ""
    · simp [hempty] at h
    · rw [if_neg hempty] at h
      have hne : inp.Outlet ≠ "" ∧ inp.Level ≠ "" ∧ inp.Format ≠ "" := by
        refine ⟨fun hx => hempty (Or.inl hx), fun hx => hempty (Or.inr (Or.inl hx)),
          fun hx => hempty (Or.inr (Or.inr hx))⟩
      cases hl : env.ParseLevel inp.Level with
      | error e => simp [hl] at h
      | ok minLevel =>
        simp only [hl] at h
        cases hf : parseLogFormat (.str inp.Format) with
        | error e => simp [hf] at h
        | ok f =>
          simp only [hf] at h
          by_cases h1 : inp.Outlet = "stdout"
          · simp only [h1, if_true, parseStdoutOutlet, Except.ok.injEq, Prod.mk.injEq] at h
            obtain ⟨ho, hlv⟩ := h
            subst hlv
            exact ⟨inp, f, rfl, hne.1, hne.2.1, hne.2.2, hl, hf, Or.inl ⟨h1, ho.symm⟩⟩
          · rw [if_neg h1] at h
            by_cases h2 : inp.Outlet = "tcp"
            · rw [if_pos h2] at h
              cases ht : parseTCPOutlet env le ⟨minLevel, f⟩ with
              | error e => simp [ht] at h
              | ok t =>
                simp only [ht, Except.ok.injEq, Prod.mk.injEq] at h
                obtain ⟨ho, hlv⟩ := h
                subst hlv
                exact ⟨inp, f, rfl, hne.1, hne.2.1, hne.2.2, hl, hf,
                  Or.inr (Or.inl ⟨h2, t, ht, ho.symm⟩)⟩
            · rw [if_neg h2] at h
              by_cases h3 : inp.Outlet = "syslog"
              · rw [if_pos h3] at h
                cases hs : parseSyslogOutlet env le ⟨minLevel, f⟩ with
                | error e => simp [hs] at h
                | ok s =>
                  simp only [hs, Except.ok.injEq, Prod.mk.injEq] at h
                  obtain ⟨ho, hlv⟩ := h
                  subst hlv
                  exact ⟨inp, f, rfl, hne.1, hne.2.1, hne.2.2, hl, hf,
                    Or.inr (Or.inr ⟨h3, s, hs, ho.symm⟩)⟩
              · simp [h3] at h

theorem parseOutlet_isWriter_iff (env : Env) (le : Value) (o : Outlet) (l : Level)
    (h : parseOutlet env le = .ok (o, l)) :
    o.isWriter = true ↔ entryType env le = "stdout" := by
  obtain ⟨inp, f, hd, -, -, -, -, -, hcase⟩ := parseOutlet_ok_inv env le o l h
  unfold entryType
  rw [hd]
  rcases hcase with ⟨hn, ho⟩ | ⟨hn, t, -, ho⟩ | ⟨hn, s, -, ho⟩ <;>
    simp [ho, hn, Outlet.isWriter]

theorem parseOutlet_isSyslog_iff (env : Env) (le : Value) (o : Outlet) (l : Level)
    (h : parseOutlet env le = .ok (o, l)) :
    o.isSyslog = true ↔ entryType env le = "syslog" := by
  obtain ⟨inp, f, hd, -, -, -, -, -, hcase⟩ := parseOutlet_ok_inv env le o l h
  unfold entryType
  rw [hd]
  rcases hcase with ⟨hn, ho⟩ | ⟨hn, t, -, ho⟩ | ⟨hn, s, -, ho⟩ <;>
    simp [ho, hn, Outlet.isSyslog]

/-! ## The loop of `parseLogging` -/

theorem allParse_cons (env : Env) (le : Value) (rest : List Value)
    (h : allParse env (le :: rest)) :
    (∃ r, parseOutlet env le = .ok r) ∧ allParse env rest := by
  refine ⟨(succeeds_iff _).1 (h le (List.mem_cons_self _ _)), ?_⟩
  intro x hx
  exact h x (List.mem_cons_of_mem _ hx)

theorem parsedPairs_cons_ok (env : Env) (le : Value) (rest : List Value) (r : Outlet × Level)
    (h : parseOutlet env le = .ok r) :
    parsedPairs env (le :: rest) = r :: parsedPairs env rest := by
  simp [parsedPairs, List.filterMap_cons, h]

/-- When every entry parses, the loop ends normally: the registry has grown by the parsed
pairs in order, and the two counters by the number of syslog and of writer outlets. -/
theorem parseLoggingLoop_allParse (env : Env) (xs : List Value) (h : allParse env xs)
    (lei : Nat) (st : LoopState) :
    parseLoggingLoop env xs lei st = .ok
      ⟨⟨⟨st.c.Outlets.entries ++ parsedPairs env xs⟩⟩,
       st.syslogOutlets + (parsedPairs env xs).countP (fun p => p.1.isSyslog),
       st.stdoutOutlets + (parsedPairs env xs).countP (fun p => p.1.isWriter)⟩ := by
  induction xs generalizing lei st with
  | nil => simp [parseLoggingLoop, parsedPairs]
  | cons le rest ih =>
    obtain ⟨⟨⟨o, l⟩, hr⟩, hrest⟩ := allParse_cons env le rest h
    rw [parsedPairs_cons_ok env le rest (o, l) hr]
    unfold parseLoggingLoop
    simp only [hr]
    rw [ih hrest]
    cases o <;>
      simp [countOutlet, Outlets.Add, Outlet.isSyslog, Outlet.isWriter, List.countP_cons] <;>
      omega

theorem parsedPairs_length (env : Env) (xs : List Value) (h : allParse env xs) :
    (parsedPairs env xs).length = xs.length := by
  induction xs with
  | nil => simp [parsedPairs]
  | cons le rest ih =>
    obtain ⟨⟨r, hr⟩, hrest⟩ := allParse_cons env le rest h
    rw [parsedPairs_cons_ok env le rest r hr]
    simp [ih hrest]

theorem parsedPairs_map_ok (env : Env) (xs : List Value) (h : allParse env xs) :
    xs.map (parseOutlet env) = (parsedPairs env xs).map Except.ok := by
  induction xs with
  | nil => simp [parsedPairs]
  | cons le rest ih =>
    obtain ⟨⟨r, hr⟩, hrest⟩ := allParse_cons env le rest h
    rw [parsedPairs_cons_ok env le rest r hr]
    simp [ih hrest, hr]

theorem countP_isWriter_eq (env : Env) (xs : List Value) (h : allParse env xs) :
    (parsedPairs env xs).countP (fun p => p.1.isWriter) = countType env "stdout" xs := by
  induction xs with
  | nil => simp [parsedPairs, countType]
  | cons le rest ih =>
    obtain ⟨⟨⟨o, l⟩, hr⟩, hrest⟩ := allParse_cons env le rest h
    rw [parsedPairs_cons_ok env le rest (o, l) hr]
    have hw := parseOutlet_isWriter_iff env le o l hr
    have ih1 := ih hrest
    unfold countType at ih1 ⊢
    rw [List.countP_cons, List.countP_cons, ih1]
    by_cases hb : o.isWriter = true
    · simp [hb, hw.1 hb]
    · have : ¬ entryType env le = "stdout" := fun hx => hb (hw.2 hx)
      simp [hb, this]

theorem countP_isSyslog_eq (env : Env) (xs : List Value) (h : allParse env xs) :
    (parsedPairs env xs).countP (fun p => p.1.isSyslog) = countType env "syslog" xs := by
  induction xs with
  | nil => simp [parsedPairs, countType]
  | cons le rest ih =>
    obtain ⟨⟨⟨o, l⟩, hr⟩, hrest⟩ := allParse_cons env le rest h
    rw [parsedPairs_cons_ok env le rest (o, l) hr]
    have hw := parseOutlet_isSyslog_iff env le o l hr
    have ih1 := ih hrest
    unfold countType at ih1 ⊢
    rw [List.countP_cons, List.countP_cons, ih1]
    by_cases hb : o.isSyslog = true
    · simp [hb, hw.1 hb]
    · have : ¬ entryType env le = "syslog" := fun hx => hb (hw.2 hx)
      simp [hb, this]

/-- The result of `parseLogging` on a non-empty list all of whose entries parse, by the
two counts. -/
theorem parseLogging_allParse (env : Env) (i : Value) (xs : List Value)
    (hdec : env.decodeList i = .ok (some xs)) (hne : xs ≠ []) (hall : allParse env xs) :
    parseLogging env i =
      if countType env "syslog" xs > 1 then (none, some "can only define one 'syslog' outlet")
      else if countType env "stdout" xs > 1 then
        (none, some "can only define one 'stdout' outlet")
      else (some ⟨⟨parsedPairs env xs⟩⟩, none) := by
  have hlen : ¬ xs.length = 0 := by
    intro h0
    exact hne (List.length_eq_zero.1 h0)
  unfold parseLogging
  simp only [hdec, sliceLen, sliceElems, if_neg hlen]
  rw [parseLoggingLoop_allParse env xs hall]
  simp only [NewOutlets, List.nil_append, Nat.zero_add]
  rw [countP_isWriter_eq env xs hall, countP_isSyslog_eq env xs hall]

/-- The loop stops at the first entry that fails to parse, with that entry's error wrapped
under the entry's index. -/
theorem parseLoggingLoop_first_failure (env : Env) (xs : List Value) :
    ∀ (k lei : Nat) (st : LoopState) (le : Value) (e : String),
      xs[k]? = some le →
      (∀ j lej, j < k → xs[j]? = some lej → succeeds (parseOutlet env lej) = true) →
      parseOutlet env le = .error e →
      parseLoggingLoop env xs lei st =
        .error (errorsWrap e ("cannot parse outlet #" ++ toString (lei + k))) := by
  induction xs with
  | nil => intro k lei st le e hk; simp at hk
  | cons x rest ih =>
    intro k lei st le e hk hfirst hfail
    cases k with
    | zero =>
      simp only [List.getElem?_cons_zero, Option.some.injEq] at hk
      subst hk
      unfold parseLoggingLoop
      simp [hfail]
    | succ k =>
      have hx : succeeds (parseOutlet env x) = true :=
        hfirst 0 x (Nat.succ_pos k) (by simp)
      obtain ⟨⟨o, l⟩, hr⟩ := (succeeds_iff _).1 hx
      unfold parseLoggingLoop
      simp only [hr]
      rw [ih k (lei + 1) _ le e (by simpa using hk)
        (fun j lej hj hjx => hfirst (j + 1) lej (Nat.succ_lt_succ hj) (by simpa using hjx)) hfail]
      have : lei + 1 + k = lei + (k + 1) := by omega
      rw [this]

theorem parseOutlet_badRetryInterval (env : Env) (le : Value) (d : String)
    (h : badRetryInterval env le d) :
    parseOutlet env le = .error ("cannot parse 'retry_interval': " ++ d) := by
  obtain ⟨inp, l, f, hd, hlv, hfm, hl, hf, hcase⟩ := h
  have hlit : "cannot parse 'retry_interval'" ++ ": " = "cannot parse 'retry_interval': " := by
    decide
  rcases hcase with ⟨hn, t, ht, hp⟩ | ⟨hn, s, hs, hne, hp⟩
  · have hempty : ¬ (inp.Outlet = "" ∨ inp.Level = "" ∨ inp.Format = "") := by
      rw [hn]
      rintro (h1 | h1 | h1)
      · exact absurd h1 (by decide)
      · exact hlv h1
      · exact hfm h1
    unfold parseOutlet
    simp only [hd, if_neg hempty, hl, hf]
    rw [if_neg (by rw [hn]; decide), if_pos hn]
    simp only [parseTCPOutlet, ht, hp, errorsWrap, hlit]
  · have hempty : ¬ (inp.Outlet = "" ∨ inp.Level = "" ∨ inp.Format = "") := by
      rw [hn]
      rintro (h1 | h1 | h1)
      · exact absurd h1 (by decide)
      · exact hlv h1
      · exact hfm h1
    unfold parseOutlet
    simp only [hd, if_neg hempty, hl, hf]
    rw [if_neg (by rw [hn]; decide), if_neg (by rw [hn]; decide), if_pos hn]
    simp only [parseSyslogOutlet, hs, hp, errorsWrap, hlit, if_pos hne]

/-! ## The configuration parser: defaulting, cardinality, order, first failure -/

/-- C1: when the input decodes to an absent (nil) or to an empty outlet list,
`parseLogging` succeeds with a nil error and a registry holding exactly one entry, a
`WriterOutlet` on standard output with the human formatter at minimum level Warn; the
result is the same for the nil and for the empty list. -/
theorem parseLogging_default (env : Env) (i : Value)
    (h : env.decodeList i = .ok none ∨ env.decodeList i = .ok (some [])) :
    parseLogging env i =
      (some ⟨⟨[(Outlet.writer ⟨⟨FormatterType.HumanFormatter, false⟩, Writer.Stdout⟩,
        Level.Warn)]⟩⟩, none) := by
  rcases h with h | h <;>
    simp [parseLogging, h, sliceLen, NewOutlets, Outlets.Add]

theorem parseLogging_default_witness :
    (sampleEnv.decodeList (.list []) = .ok none ∨
      sampleEnv.decodeList (.list []) = .ok (some [])) ∧
    parseLogging sampleEnv (.list []) =
      (some ⟨⟨[(Outlet.writer ⟨⟨FormatterType.HumanFormatter, false⟩, Writer.Stdout⟩,
        Level.Warn)]⟩⟩, none) :=
  ⟨Or.inr rfl, parseLogging_default sampleEnv (.list []) (Or.inr rfl)⟩

/-- C2, as stated, fails: the list of two stdout entries followed by two syslog entries
decodes, all four entries parse and two of them are of type stdout, yet `parseLogging`
does not fail with the stdout error; the syslog count is tested first and its error is
returned. -/
theorem parseLogging_duplicate_counterexample :
    sampleEnv.decodeList (.list twoStdoutTwoSyslog) = .ok (some twoStdoutTwoSyslog) ∧
    twoStdoutTwoSyslog ≠ [] ∧
    allParse sampleEnv twoStdoutTwoSyslog ∧
    2 ≤ countType sampleEnv "stdout" twoStdoutTwoSyslog ∧
    parseLogging sampleEnv (.list twoStdoutTwoSyslog) ≠
      (none, some "can only define one 'stdout' outlet") ∧
    parseLogging sampleEnv (.list twoStdoutTwoSyslog) =
      (none, some "can only define one 'syslog' outlet") := by
  refine ⟨rfl, List.cons_ne_nil _ _, by decide, by decide, by decide, by decide⟩

/-- C2, amended: for a non-empty outlet list all of whose entries parse, two or more
entries of type syslog make `parseLogging` fail with "can only define one 'syslog' outlet",
and two or more entries of type stdout together with at most one of type syslog make it
fail with "can only define one 'stdout' outlet"; in both cases the returned configuration
is nil. -/
theorem parseLogging_duplicate (env : Env) (i : Value) (xs : List Value)
    (hdec : env.decodeList i = .ok (some xs)) (hne : xs ≠ []) (hall : allParse env xs) :
    (2 ≤ countType env "syslog" xs →
      parseLogging env i = (none, some "can only define one 'syslog' outlet")) ∧
    (2 ≤ countType env "stdout" xs → countType env "syslog" xs ≤ 1 →
      parseLogging env i = (none, some "can only define one 'stdout' outlet")) := by
  rw [parseLogging_allParse env i xs hdec hne hall]
  constructor
  · intro h
    rw [if_pos (by omega)]
  · intro h1 h2
    rw [if_neg (by omega), if_pos (by omega)]

theorem parseLogging_duplicate_witness :
    sampleEnv.decodeList
        (.list [entry "stdout" "warn" "human", entry "stdout" "debug" "json"]) =
      .ok (some [entry "stdout" "warn" "human", entry "stdout" "debug" "json"]) ∧
    parseLogging sampleEnv
        (.list [entry "stdout" "warn" "human", entry "stdout" "debug" "json"]) =
      (none, some "can only define one 'stdout' outlet") :=
  ⟨rfl, (parseLogging_duplicate sampleEnv
      (.list [entry "stdout" "warn" "human", entry "stdout" "debug" "json"])
      [entry "stdout" "warn" "human", entry "stdout" "debug" "json"]
      rfl (List.cons_ne_nil _ _) (by decide)).2 (by decide) (by decide)⟩

/-- C3: for a non-empty outlet list of length n all of whose entries parse, with at most
one entry of type stdout and at most one of type syslog (tcp entries are not limited),
`parseLogging` succeeds with a nil error and the registry holds exactly n pairs, the k-th
of which is the result of `parseOutlet` on the k-th entry. -/
theorem parseLogging_registry_order (env : Env) (i : Value) (xs : List Value)
    (hdec : env.decodeList i = .ok (some xs)) (hne : xs ≠ []) (hall : allParse env xs)
    (hstdout : countType env "stdout" xs ≤ 1) (hsyslog : countType env "syslog" xs ≤ 1) :
    ∃ ps : List (Outlet × Level),
      parseLogging env i = (some ⟨⟨ps⟩⟩, none) ∧
      ps.length = xs.length ∧
      xs.map (parseOutlet env) = ps.map Except.ok := by
  refine ⟨parsedPairs env xs, ?_, parsedPairs_length env xs hall,
    parsedPairs_map_ok env xs hall⟩
  rw [parseLogging_allParse env i xs hdec hne hall, if_neg (by omega), if_neg (by omega)]

theorem parseLogging_registry_order_witness :
    countType sampleEnv "tcp"
      [tcpEntry "info" "json" "10s", entry "stdout" "warn" "human",
        tcpEntry "debug" "logfmt" "500ms"] = 2 ∧
    ∃ ps : List (Outlet × Level),
      parseLogging sampleEnv (.list [tcpEntry "info" "json" "10s",
        entry "stdout" "warn" "human", tcpEntry "debug" "logfmt" "500ms"]) =
          (some ⟨⟨ps⟩⟩, none) ∧
      ps.length = 3 ∧
      [tcpEntry "info" "json" "10s", entry "stdout" "warn" "human",
        tcpEntry "debug" "logfmt" "500ms"].map (parseOutlet sampleEnv) = ps.map Except.ok :=
  ⟨by decide, parseLogging_registry_order sampleEnv
    (.list [tcpEntry "info" "json" "10s", entry "stdout" "warn" "human",
      tcpEntry "debug" "logfmt" "500ms"])
    [tcpEntry "info" "json" "10s", entry "stdout" "warn" "human",
      tcpEntry "debug" "logfmt" "500ms"]
    rfl (List.cons_ne_nil _ _) (by decide) (by decide) (by decide)⟩

/-- C4: when the k-th entry (counting from 0, as the loop index does) of a decoded outlet
list is the first one on which `parseOutlet` fails, with error `e`, `parseLogging` returns
no configuration and the error "cannot parse outlet #k: e"; when that entry is a tcp or
syslog entry whose retry interval is rejected by `time.ParseDuration` with error `d`, the
message is "cannot parse outlet #k: cannot parse 'retry_interval': d". -/
theorem parseLogging_first_failure (env : Env) (i : Value) (xs : List Value) (k : Nat)
    (le : Value) (e : String)
    (hdec : env.decodeList i = .ok (some xs)) (hk : xs[k]? = some le)
    (hfirst : ∀ j lej, j < k → xs[j]? = some lej → succeeds (parseOutlet env lej) = true)
    (hfail : parseOutlet env le = .error e) :
    parseLogging env i = (none, some ("cannot parse outlet #" ++ toString k ++ ": " ++ e)) ∧
    (∀ d, badRetryInterval env le d →
      parseLogging env i = (none, some ("cannot parse outlet #" ++ toString k ++ ": " ++
        ("cannot parse 'retry_interval': " ++ d)))) := by
  have hlen : ¬ xs.length = 0 := by
    intro h0
    rw [List.length_eq_zero.1 h0] at hk
    simp at hk
  have hmain : parseLogging env i =
      (none, some ("cannot parse outlet #" ++ toString k ++ ": " ++ e)) := by
    unfold parseLogging
    simp only [hdec, sliceLen, sliceElems, if_neg hlen]
    rw [parseLoggingLoop_first_failure env xs k 0 _ le e hk hfirst hfail]
    simp [errorsWrap]
  refine ⟨hmain, ?_⟩
  intro d hd
  have he := parseOutlet_badRetryInterval env le d hd
  rw [hfail] at he
  rw [hmain, Except.error.inj he]

theorem parseLogging_first_failure_witness :
    succeeds (parseOutlet sampleEnv (entry "stdout" "warn" "human")) = true ∧
    parseOutlet sampleEnv (tcpEntry "info" "json" "soon") =
      .error "cannot parse 'retry_interval': time: invalid duration soon" ∧
    parseLogging sampleEnv
        (.list [entry "stdout" "warn" "human", tcpEntry "info" "json" "soon",
          entry "udp" "warn" "human"]) =
      (none, some ("cannot parse outlet #1: " ++
        "cannot parse 'retry_interval': time: invalid duration soon")) :=
  ⟨by decide, rfl,
   (parseLogging_first_failure sampleEnv
    (.list [entry "stdout" "warn" "human", tcpEntry "info" "json" "soon",
      entry "udp" "warn" "human"])
    [entry "stdout" "warn" "human", tcpEntry "info" "json" "soon", entry "udp" "warn" "human"]
    1 (tcpEntry "info" "json" "soon")
    "cannot parse 'retry_interval': time: invalid duration soon"
    rfl rfl
    (by
      intro j lej hj hx
      have hj0 : j = 0 := by omega
      subst hj0
      simp only [List.getElem?_cons_zero, Option.some.injEq] at hx
      subst hx
      decide)
    rfl).1⟩

/-! ## The entry parser and the formatter selector -/

/-- C5: when an entry decodes and at least one of the three fields outlet, level, format is
the empty string (the zero value an absent key leaves behind), `parseOutlet` fails with
the one combined error "must specify 'outlet', 'level' and 'format' field", whichever and
however many of the three are empty and whatever the other fields hold. -/
theorem parseOutlet_missing_field (env : Env) (i : Value) (inp : OutletIn)
    (hd : env.decodeOutletIn i = .ok inp)
    (h : inp.Outlet = "" ∨ inp.Level = "" ∨ inp.Format = "") :
    parseOutlet env i = .error "must specify 'outlet', 'level' and 'format' field" := by
  unfold parseOutlet
  simp only [hd, if_pos h]

theorem parseOutlet_missing_field_witness :
    sampleEnv.decodeOutletIn (.map [("level", .str "loud"), ("format", .str "json")]) =
      .ok ⟨"", "loud", "json"⟩ ∧
    parseOutlet sampleEnv (.map [("level", .str "loud"), ("format", .str "json")]) =
      .error "must specify 'outlet', 'level' and 'format' field" :=
  ⟨rfl, parseOutlet_missing_field sampleEnv
    (.map [("level", .str "loud"), ("format", .str "json")]) ⟨"", "loud", "json"⟩ rfl
    (Or.inl rfl)⟩

/-- C6: when an entry decodes with a present level name that `logger.ParseLevel` accepts,
a format name that `parseLogFormat` accepts, and a non-empty outlet type name other than
"stdout", "tcp" and "syslog", `parseOutlet` fails with the error
"unknown outlet type '<name>'", which contains the offending name in quotes. -/
theorem parseOutlet_unknown_type (env : Env) (i : Value) (inp : OutletIn) (l : Level)
    (f : EntryFormatter)
    (hd : env.decodeOutletIn i = .ok inp)
    (hlevel : inp.Level ≠ "") (hl : env.ParseLevel inp.Level = .ok l)
    (hf : parseLogFormat (.str inp.Format) = .ok f)
    (h0 : inp.Outlet ≠ "") (h1 : inp.Outlet ≠ "stdout") (h2 : inp.Outlet ≠ "tcp")
    (h3 : inp.Outlet ≠ "syslog") :
    parseOutlet env i = .error ("unknown outlet type '" ++ inp.Outlet ++ "'") := by
  have hformat : inp.Format ≠ "" := by
    intro hx
    rw [hx] at hf
    simp [parseLogFormat] at hf
  have hempty : ¬ (inp.Outlet = "" ∨ inp.Level = "" ∨ inp.Format = "") := by
    rintro (hx | hx | hx)
    · exact h0 hx
    · exact hlevel hx
    · exact hformat hx
  unfold parseOutlet
  simp only [hd, if_neg hempty, hl, hf, if_neg h1, if_neg h2, if_neg h3]

theorem parseOutlet_unknown_type_witness :
    parseOutlet sampleEnv (entry "udp" "warn" "human") =
      .error ("unknown outlet type '" ++ "udp" ++ "'") :=
  parseOutlet_unknown_type sampleEnv (entry "udp" "warn" "human") ⟨"udp", "warn", "human"⟩
    Level.Warn ⟨FormatterType.HumanFormatter, false⟩ rfl (by decide) rfl rfl
    (by decide) (by decide) (by decide) (by decide)

/-- C7: `parseLogFormat` maps "human", "logfmt" and "json" to the human, logfmt and JSON
formatter; it succeeds exactly on these three strings; two distinct accepted names give
formatters of distinct types; every other string `s` fails with the error
"invalid log format: '<s>'", and every non-string input fails. -/
theorem parseLogFormat_spec :
    parseLogFormat (.str "human") = .ok ⟨FormatterType.HumanFormatter, false⟩ ∧
    parseLogFormat (.str "logfmt") = .ok ⟨FormatterType.LogfmtFormatter, false⟩ ∧
    parseLogFormat (.str "json") = .ok ⟨FormatterType.JSONFormatter, false⟩ ∧
    (∀ i : Value, succeeds (parseLogFormat i) = true ↔
      (i = .str "human" ∨ i = .str "logfmt" ∨ i = .str "json")) ∧
    (∀ (s1 s2 : String) (f1 f2 : EntryFormatter),
      parseLogFormat (.str s1) = .ok f1 → parseLogFormat (.str s2) = .ok f2 →
      s1 ≠ s2 → f1.dynType ≠ f2.dynType) ∧
    (∀ s : String, s ≠ "human" → s ≠ "logfmt" → s ≠ "json" →
      parseLogFormat (.str s) = .error ("invalid log format: '" ++ s ++ "'")) ∧
    (∀ i : Value, (∀ s : String, i ≠ .str s) →
      parseLogFormat i = .error ("invalid log format: wrong type: " ++ i.goTypeName)) := by
  have hother : ∀ s : String, s ≠ "human" → s ≠ "logfmt" → s ≠ "json" →
      parseLogFormat (.str s) = .error ("invalid log format: '" ++ s ++ "'") := by
    intro s h1 h2 h3
    simp [parseLogFormat, h1, h2, h3]
  have hinv : ∀ (s : String) (f : EntryFormatter), parseLogFormat (.str s) = .ok f →
      (s = "human" ∧ f.dynType = FormatterType.HumanFormatter) ∨
      (s = "logfmt" ∧ f.dynType = FormatterType.LogfmtFormatter) ∨
      (s = "json" ∧ f.dynType = FormatterType.JSONFormatter) := by
    intro s f h
    by_cases h1 : s = "human"
    · subst h1
      have : f = ⟨FormatterType.HumanFormatter, false⟩ := by
        simpa [parseLogFormat] using h.symm
      exact Or.inl ⟨rfl, by rw [this]⟩
    · by_cases h2 : s = "logfmt"
      · subst h2
        have : f = ⟨FormatterType.LogfmtFormatter, false⟩ := by
          simpa [parseLogFormat] using h.symm
        exact Or.inr (Or.inl ⟨rfl, by rw [this]⟩)
      · by_cases h3 : s = "json"
        · subst h3
          have : f = ⟨FormatterType.JSONFormatter, false⟩ := by
            simpa [parseLogFormat] using h.symm
          exact Or.inr (Or.inr ⟨rfl, by rw [this]⟩)
        · rw [hother s h1 h2 h3] at h
          cases h
  refine ⟨rfl, rfl, rfl, ?_, ?_, hother, ?_⟩
  · intro i
    constructor
    · intro h
      obtain ⟨f, hf⟩ := (succeeds_iff _).1 h
      cases i with
      | str s =>
        rcases hinv s f hf with ⟨hs, -⟩ | ⟨hs, -⟩ | ⟨hs, -⟩ <;> simp [hs]
      | null => simp [parseLogFormat] at hf
      | bool b => simp [parseLogFormat] at hf
      | int n => simp [parseLogFormat] at hf
      | list xs => simp [parseLogFormat] at hf
      | map kvs => simp [parseLogFormat] at hf
    · rintro (h | h | h) <;> subst h <;> rfl
  · intro s1 s2 f1 f2 hf1 hf2 hne hty
    rcases hinv s1 f1 hf1 with ⟨hs1, ht1⟩ | ⟨hs1, ht1⟩ | ⟨hs1, ht1⟩ <;>
      rcases hinv s2 f2 hf2 with ⟨hs2, ht2⟩ | ⟨hs2, ht2⟩ | ⟨hs2, ht2⟩ <;>
      first
        | exact hne (hs1.trans hs2.symm)
        | (rw [ht1, ht2] at hty; cases hty)
  · intro i hi
    cases i with
    | str s => exact absurd rfl (hi s)
    | null => rfl
    | bool b => rfl
    | int n => rfl
    | list xs => rfl
    | map kvs => rfl

theorem parseLogFormat_spec_witness :
    parseLogFormat (.str "yaml") = .error ("invalid log format: '" ++ "yaml" ++ "'") ∧
    parseLogFormat (.int 7) = .error ("invalid log format: wrong type: " ++ "int") :=
  ⟨parseLogFormat_spec.2.2.2.2.2.1 "yaml" (by decide) (by decide) (by decide),
   parseLogFormat_spec.2.2.2.2.2.2 (.int 7) (fun s h => by cases h)⟩

/-! ## The tcp and syslog builders -/

theorem parseTCPOutlet_ok_inv (env : Env) (i : Value) (common : OutletCommon)
    (out : TCPOutlet) (h : parseTCPOutlet env i common = .ok out) :
    ∃ inp d, env.decodeTCPIn i = .ok inp ∧ env.ParseDuration inp.RetryInterval = .ok d ∧
      out.Formatter = common.Formatter ∧ out.Net = inp.Net ∧ out.Address = inp.Address ∧
      out.RetryInterval = d ∧
      ((inp.TLS = none ∧ out.TLS = none) ∨
       (∃ t cfg, inp.TLS = some t ∧ parseTCPOutletTLS env t = .ok cfg ∧
         out.TLS = some cfg)) := by
  unfold parseTCPOutlet at h
  cases hd : env.decodeTCPIn i with
  | error e => simp [hd] at h
  | ok inp =>
    simp only [hd] at h
    cases hp : env.ParseDuration inp.RetryInterval with
    | error e => simp [hp] at h
    | ok d =>
      simp only [hp] at h
      cases ht : inp.TLS with
      | none =>
        simp only [ht, Except.ok.injEq] at h
        subst h
        exact ⟨inp, d, rfl, hp, rfl, rfl, rfl, rfl, Or.inl ⟨ht, rfl⟩⟩
      | some t =>
        simp only [ht] at h
        cases hc : parseTCPOutletTLS env t with
        | error e => simp [hc] at h
        | ok cfg =>
          simp only [hc, Except.ok.injEq] at h
          subst h
          exact ⟨inp, d, rfl, hp, rfl, rfl, rfl, rfl, Or.inr ⟨t, cfg, ht, hc, rfl⟩⟩

theorem parseSyslogOutlet_ok_inv (env : Env) (i : Value) (common : OutletCommon)
    (out : SyslogOutlet) (h : parseSyslogOutlet env i common = .ok out) :
    ∃ inp, env.decodeSyslogIn i = .ok inp ∧
      out.Formatter =
        (if env.implementsSetNoMetadata common.Formatter.dynType then
          common.Formatter.SetNoMetadata true
        else common.Formatter) ∧
      ((inp.RetryInterval = "" ∧ out.RetryInterval = 0) ∨
       (inp.RetryInterval ≠ "" ∧
         env.ParseDuration inp.RetryInterval = .ok out.RetryInterval)) := by
  unfold parseSyslogOutlet at h
  cases hd : env.decodeSyslogIn i with
  | error e => simp [hd] at h
  | ok inp =>
    simp only [hd] at h
    by_cases hr : inp.RetryInterval = ""
    · simp only [hr, ne_eq, not_true_eq_false, if_false, Except.ok.injEq] at h
      subst h
      exact ⟨inp, rfl, rfl, Or.inl ⟨hr, rfl⟩⟩
    · rw [if_pos hr] at h
      cases hp : env.ParseDuration inp.RetryInterval with
      | error e => simp [hp] at h
      | ok d =>
        simp only [hp, Except.ok.injEq] at h
        subst h
        exact ⟨inp, rfl, rfl, Or.inr ⟨hr, hp⟩⟩

/-- C10: when `parseOutlet` succeeds on an entry, let `f` be the formatter that
`parseLogFormat` selects for the entry's format name.  For a syslog entry the outlet's
formatter is `f` after `SetNoMetadata(true)` when the type of `f` implements
`SetNoMetadataFormatter`, and `f` unchanged when it does not; for a stdout or tcp entry
the outlet's formatter is `f` unchanged, with the suppress-metadata mode off. -/
theorem parseOutlet_syslog_no_metadata (env : Env) (i : Value) (o : Outlet) (l : Level)
    (h : parseOutlet env i = .ok (o, l)) :
    ∃ inp f, env.decodeOutletIn i = .ok inp ∧ parseLogFormat (.str inp.Format) = .ok f ∧
      (inp.Outlet = "syslog" → env.implementsSetNoMetadata f.dynType = true →
        o.formatter = f.SetNoMetadata true ∧ o.formatter.NoMetadata = true) ∧
      (inp.Outlet = "syslog" → env.implementsSetNoMetadata f.dynType = false →
        o.formatter = f) ∧
      (inp.Outlet = "stdout" ∨ inp.Outlet = "tcp" →
        o.formatter = f ∧ o.formatter.NoMetadata = false) := by
  obtain ⟨inp, f, hd, -, -, -, -, hf, hcase⟩ := parseOutlet_ok_inv env i o l h
  have hflag : f.NoMetadata = false := by
    revert hf
    unfold parseLogFormat
    simp only
    split_ifs <;> intro hf <;> cases hf <;> rfl
  refine ⟨inp, f, hd, hf, ?_, ?_, ?_⟩
  · intro hn himpl
    rcases hcase with ⟨hn1, -⟩ | ⟨hn1, -⟩ | ⟨-, s, hs, ho⟩
    · rw [hn] at hn1; exact absurd hn1 (by decide)
    · rw [hn] at hn1; exact absurd hn1 (by decide)
    · obtain ⟨-, -, hfmt, -⟩ := parseSyslogOutlet_ok_inv env i ⟨l, f⟩ s hs
      simp only [himpl, if_true] at hfmt
      rw [ho]
      show s.Formatter = _ ∧ s.Formatter.NoMetadata = true
      rw [hfmt]
      exact ⟨rfl, rfl⟩
  · intro hn himpl
    rcases hcase with ⟨hn1, -⟩ | ⟨hn1, -⟩ | ⟨-, s, hs, ho⟩
    · rw [hn] at hn1; exact absurd hn1 (by decide)
    · rw [hn] at hn1; exact absurd hn1 (by decide)
    · obtain ⟨-, -, hfmt, -⟩ := parseSyslogOutlet_ok_inv env i ⟨l, f⟩ s hs
      simp only [himpl] at hfmt
      rw [ho]
      simpa [Outlet.formatter] using hfmt
  · intro hn
    rcases hcase with ⟨-, ho⟩ | ⟨-, t, ht, ho⟩ | ⟨hn1, -⟩
    · rw [ho]
      exact ⟨rfl, hflag⟩
    · obtain ⟨-, -, -, -, hfmt, -⟩ := parseTCPOutlet_ok_inv env i ⟨l, f⟩ t ht
      rw [ho]
      show t.Formatter = _ ∧ t.Formatter.NoMetadata = false
      rw [hfmt]
      exact ⟨rfl, hflag⟩
    · rcases hn with hn | hn <;> rw [hn1] at hn <;> exact absurd hn (by decide)

theorem parseOutlet_syslog_no_metadata_witness :
    parseOutlet sampleEnv (syslogEntry "warn" "human" none) =
      .ok (.syslog ⟨⟨FormatterType.HumanFormatter, true⟩, 0⟩, Level.Warn) ∧
    sampleEnv.implementsSetNoMetadata FormatterType.HumanFormatter = true ∧
    (Outlet.syslog ⟨⟨FormatterType.HumanFormatter, true⟩, 0⟩).formatter =
      EntryFormatter.SetNoMetadata ⟨FormatterType.HumanFormatter, false⟩ true := by
  refine ⟨rfl, rfl, ?_⟩
  obtain ⟨inp, f, hd, hf, hyes, -, -⟩ :=
    parseOutlet_syslog_no_metadata sampleEnv (syslogEntry "warn" "human" none)
      (.syslog ⟨⟨FormatterType.HumanFormatter, true⟩, 0⟩) Level.Warn rfl
  have hinp : inp = ⟨"syslog", "warn", "human"⟩ := (Except.ok.inj hd).symm
  subst hinp
  have hf2 : f = ⟨FormatterType.HumanFormatter, false⟩ := (Except.ok.inj hf).symm
  subst hf2
  exact (hyes rfl rfl).1

/-! ## The stdout builder, retained values, TLS material -/

/-- C11: the stdout builder has no failure condition.  `parseStdoutOutlet` returns, for
every entry and every common part, a `WriterOutlet` with the given formatter on standard
output; and for an entry that decodes with outlet type "stdout", a present level name that
`logger.ParseLevel` accepts and a format name that `parseLogFormat` accepts, `parseOutlet`
succeeds with that outlet, whatever else the entry holds: the tcp and syslog decoders and
`time.ParseDuration` are not consulted. -/
theorem parseOutlet_stdout_no_failure (env : Env) (i : Value) (inp : OutletIn) (l : Level)
    (f : EntryFormatter)
    (hd : env.decodeOutletIn i = .ok inp) (ho : inp.Outlet = "stdout")
    (hlevel : inp.Level ≠ "") (hl : env.ParseLevel inp.Level = .ok l)
    (hf : parseLogFormat (.str inp.Format) = .ok f) :
    (∀ (j : Value) (common : OutletCommon),
      parseStdoutOutlet j common = .ok ⟨common.Formatter, Writer.Stdout⟩) ∧
    parseOutlet env i = .ok (Outlet.writer ⟨f, Writer.Stdout⟩, l) := by
  refine ⟨fun _ _ => rfl, ?_⟩
  have hformat : inp.Format ≠ "" := by
    intro hx
    rw [hx] at hf
    simp [parseLogFormat] at hf
  have hempty : ¬ (inp.Outlet = "" ∨ inp.Level = "" ∨ inp.Format = "") := by
    rintro (hx | hx | hx)
    · rw [ho] at hx; exact absurd hx (by decide)
    · exact hlevel hx
    · exact hformat hx
  unfold parseOutlet
  simp only [hd, if_neg hempty, hl, hf, if_pos ho, parseStdoutOutlet]

theorem parseOutlet_stdout_no_failure_witness :
    succeeds (sampleEnv.ParseDuration "soon") = false ∧
    succeeds (parseTCPOutlet sampleEnv stdoutEntryWithExtras
      ⟨Level.Info, ⟨FormatterType.LogfmtFormatter, false⟩⟩) = false ∧
    parseOutlet sampleEnv stdoutEntryWithExtras =
      .ok (Outlet.writer ⟨⟨FormatterType.LogfmtFormatter, false⟩, Writer.Stdout⟩,
        Level.Info) :=
  ⟨by decide, by decide,
   (parseOutlet_stdout_no_failure sampleEnv stdoutEntryWithExtras
      ⟨"stdout", "info", "logfmt"⟩ Level.Info ⟨FormatterType.LogfmtFormatter, false⟩
      rfl rfl (by decide) rfl rfl).2⟩

/-- C12: when `parseOutlet` succeeds on an entry, whatever its outlet type, the returned
level is the result of `logger.ParseLevel` on the entry's level name, and the formatter the
returned outlet retains is the formatter `f` that `parseLogFormat` created for the entry's
format name, not another one and not a default.  Go holds the formatter by pointer; here,
where an object is its state, the retained formatter has the type of `f` and is equal to
`f` for a stdout or tcp entry, and for a syslog entry it is `f` in the state the builder's
call `SetNoMetadata(true)` leaves it in when the type of `f` implements
`SetNoMetadataFormatter`, and equal to `f` when it does not. -/
theorem parseOutlet_retains (env : Env) (i : Value) (o : Outlet) (l : Level)
    (h : parseOutlet env i = .ok (o, l)) :
    ∃ inp f, env.decodeOutletIn i = .ok inp ∧ env.ParseLevel inp.Level = .ok l ∧
      parseLogFormat (.str inp.Format) = .ok f ∧
      o.formatter.dynType = f.dynType ∧
      (inp.Outlet ≠ "syslog" → o.formatter = f) ∧
      (inp.Outlet = "syslog" →
        o.formatter = if env.implementsSetNoMetadata f.dynType then f.SetNoMetadata true
          else f) := by
  obtain ⟨inp, f, hd, -, -, -, hl, hf, hcase⟩ := parseOutlet_ok_inv env i o l h
  refine ⟨inp, f, hd, hl, hf, ?_⟩
  rcases hcase with ⟨hn, ho⟩ | ⟨hn, t, ht, ho⟩ | ⟨hn, s, hs, ho⟩
  · subst ho
    refine ⟨rfl, fun _ => rfl, fun hx => ?_⟩
    rw [hn] at hx
    exact absurd hx (by decide)
  · obtain ⟨-, -, -, -, hfmt, -⟩ := parseTCPOutlet_ok_inv env i ⟨l, f⟩ t ht
    subst ho
    have hfm : (Outlet.tcp t).formatter = f := hfmt
    refine ⟨by rw [hfm], fun _ => hfm, fun hx => ?_⟩
    rw [hn] at hx
    exact absurd hx (by decide)
  · obtain ⟨-, -, hfmt, -⟩ := parseSyslogOutlet_ok_inv env i ⟨l, f⟩ s hs
    subst ho
    have hfm : (Outlet.syslog s).formatter =
        if env.implementsSetNoMetadata f.dynType then f.SetNoMetadata true else f := hfmt
    refine ⟨?_, fun hx => absurd hn hx, fun _ => hfm⟩
    rw [hfm]
    split <;> rfl

theorem parseOutlet_retains_witness :
    parseOutlet sampleEnv (tcpEntry "debug" "logfmt" "500ms") =
      .ok (Outlet.tcp ⟨⟨FormatterType.LogfmtFormatter, false⟩, "tcp",
        "logs.example.com:514", 500000000, none⟩, Level.Debug) ∧
    ∃ inp f, sampleEnv.decodeOutletIn (tcpEntry "debug" "logfmt" "500ms") = .ok inp ∧
      sampleEnv.ParseLevel inp.Level = .ok Level.Debug ∧
      parseLogFormat (.str inp.Format) = .ok f ∧
      f.dynType = FormatterType.LogfmtFormatter := by
  refine ⟨rfl, ?_⟩
  obtain ⟨inp, f, hd, hl, hf, hty, -, -⟩ :=
    parseOutlet_retains sampleEnv (tcpEntry "debug" "logfmt" "500ms")
      (Outlet.tcp ⟨⟨FormatterType.LogfmtFormatter, false⟩, "tcp",
        "logs.example.com:514", 500000000, none⟩) Level.Debug rfl
  exact ⟨inp, f, hd, hl, hf, hty.symm⟩

/-- The TLS block of `parseTCPOutlet` once the client certificate and key have loaded: the
trust set is the system pool when no CA path is given, and otherwise what
`AppendCertsFromPEM` puts into a new pool from the contents of the CA file. -/
theorem parseTCPOutletTLS_loaded (env : Env) (t : TLSIn) (cert : Certificate)
    (hc : env.LoadX509KeyPair t.Cert t.Key = .ok cert) :
    parseTCPOutletTLS env t =
      if t.CA = "" then
        match env.SystemCertPool with
        | .error e => .error (errorsWrap e "cannot open system cert pool")
        | .ok pool => .ok ⟨[cert], pool, env.BuildNameToCertificate [cert]⟩
      else
        match env.ReadFile t.CA with
        | .error e => .error (errorsWrap e "cannot load CA cert")
        | .ok pem =>
          if (env.AppendCertsFromPEM NewCertPool pem).2 = false then
            .error "cannot parse CA cert"
          else .ok ⟨[cert], (env.AppendCertsFromPEM NewCertPool pem).1,
            env.BuildNameToCertificate [cert]⟩ := by
  unfold parseTCPOutletTLS
  simp only [hc]
  by_cases hca : t.CA = ""
  · simp only [hca, if_true]
    cases env.SystemCertPool <;> rfl
  · simp only [if_neg hca]
    cases env.ReadFile t.CA with
    | error e => rfl
    | ok pem =>
      by_cases hb : (env.AppendCertsFromPEM NewCertPool pem).2 = false
      · simp only [hb, if_true]
      · simp [hb]

/-- C13: for a tcp entry that decodes and whose retry interval parses.  With no `tls`
block the outlet is built with no TLS configuration.  With a `tls` block whose client
certificate and key load: when the CA path is empty the trust set `RootCAs` is the pool
`x509.SystemCertPool` returns, and the build fails when that call fails; when a CA path is
given the trust set is what `AppendCertsFromPEM` adds to a new pool from the contents of
that file, and the build fails when the file cannot be read or when no certificate could
be parsed from it.  In the successful cases the configuration holds the loaded client
certificate. -/
theorem parseTCPOutlet_tls (env : Env) (i : Value) (common : OutletCommon) (inp : TCPIn)
    (d : Int) (hd : env.decodeTCPIn i = .ok inp)
    (hp : env.ParseDuration inp.RetryInterval = .ok d) :
    (inp.TLS = none → ∃ out, parseTCPOutlet env i common = .ok out ∧ out.TLS = none) ∧
    (∀ t cert, inp.TLS = some t → env.LoadX509KeyPair t.Cert t.Key = .ok cert →
      (t.CA = "" →
        (∀ pool, env.SystemCertPool = .ok pool →
          ∃ out cfg, parseTCPOutlet env i common = .ok out ∧ out.TLS = some cfg ∧
            cfg.RootCAs = pool ∧ cfg.Certificates = [cert]) ∧
        (∀ e, env.SystemCertPool = .error e →
          parseTCPOutlet env i common = .error ("cannot open system cert pool: " ++ e))) ∧
      (t.CA ≠ "" →
        (∀ e, env.ReadFile t.CA = .error e →
          parseTCPOutlet env i common = .error ("cannot load CA cert: " ++ e)) ∧
        (∀ pem, env.ReadFile t.CA = .ok pem →
          (env.AppendCertsFromPEM NewCertPool pem).2 = false →
          parseTCPOutlet env i common = .error "cannot parse CA cert") ∧
        (∀ pem, env.ReadFile t.CA = .ok pem →
          (env.AppendCertsFromPEM NewCertPool pem).2 = true →
          ∃ out cfg, parseTCPOutlet env i common = .ok out ∧ out.TLS = some cfg ∧
            cfg.RootCAs = (env.AppendCertsFromPEM NewCertPool pem).1 ∧
            cfg.Certificates = [cert]))) := by
  have hlit1 : "cannot open system cert pool" ++ ": " = "cannot open system cert pool: " := by
    decide
  have hlit2 : "cannot load CA cert" ++ ": " = "cannot load CA cert: " := by decide
  refine ⟨?_, ?_⟩
  · intro ht
    exact ⟨⟨common.Formatter, inp.Net, inp.Address, d, none⟩,
      by simp only [parseTCPOutlet, hd, hp, ht], rfl⟩
  · intro t cert ht hc
    have hbody := parseTCPOutletTLS_loaded env t cert hc
    refine ⟨?_, ?_⟩
    · intro hca
      rw [if_pos hca] at hbody
      refine ⟨?_, ?_⟩
      · intro pool hpool
        rw [hpool] at hbody
        refine ⟨⟨common.Formatter, inp.Net, inp.Address, d,
          some ⟨[cert], pool, env.BuildNameToCertificate [cert]⟩⟩,
          ⟨[cert], pool, env.BuildNameToCertificate [cert]⟩, ?_, rfl, rfl, rfl⟩
        simp only [parseTCPOutlet, hd, hp, ht, hbody]
      · intro e he
        rw [he] at hbody
        simp only [parseTCPOutlet, hd, hp, ht, hbody, errorsWrap, hlit1]
    · intro hca
      rw [if_neg hca] at hbody
      refine ⟨?_, ?_, ?_⟩
      · intro e he
        rw [he] at hbody
        simp only [parseTCPOutlet, hd, hp, ht, hbody, errorsWrap, hlit2]
      · intro pem hpem hb
        rw [hpem] at hbody
        simp only [hb, if_true] at hbody
        simp only [parseTCPOutlet, hd, hp, ht, hbody]
      · intro pem hpem hb
        rw [hpem] at hbody
        have hnb : ¬ (env.AppendCertsFromPEM NewCertPool pem).2 = false := by
          rw [hb]; decide
        simp only [if_neg hnb] at hbody
        refine ⟨⟨common.Formatter, inp.Net, inp.Address, d,
          some ⟨[cert], (env.AppendCertsFromPEM NewCertPool pem).1,
            env.BuildNameToCertificate [cert]⟩⟩,
          ⟨[cert], (env.AppendCertsFromPEM NewCertPool pem).1,
            env.BuildNameToCertificate [cert]⟩, ?_, rfl, rfl, rfl⟩
        simp only [parseTCPOutlet, hd, hp, ht, hbody]

theorem parseTCPOutlet_tls_witness :
    (∃ out cfg, parseTCPOutlet sampleEnv (tcpTLSEntry none)
        ⟨Level.Info, ⟨FormatterType.JSONFormatter, false⟩⟩ = .ok out ∧
      out.TLS = some cfg ∧ cfg.RootCAs = ⟨["system-root"]⟩ ∧
      cfg.Certificates = [⟨"/etc/zrepl/client.crt+/etc/zrepl/client.key"⟩]) ∧
    (∃ out cfg, parseTCPOutlet sampleEnv (tcpTLSEntry (some "/etc/zrepl/ca.pem"))
        ⟨Level.Info, ⟨FormatterType.JSONFormatter, false⟩⟩ = .ok out ∧
      out.TLS = some cfg ∧ cfg.RootCAs = ⟨["ca-1"]⟩ ∧
      cfg.Certificates = [⟨"/etc/zrepl/client.crt+/etc/zrepl/client.key"⟩]) ∧
    parseTCPOutlet sampleEnv (tcpTLSEntry (some "/etc/zrepl/missing.pem"))
        ⟨Level.Info, ⟨FormatterType.JSONFormatter, false⟩⟩ =
      .error ("cannot load CA cert: " ++
        "open /etc/zrepl/missing.pem: no such file or directory") :=
  ⟨(((parseTCPOutlet_tls sampleEnv (tcpTLSEntry none)
        ⟨Level.Info, ⟨FormatterType.JSONFormatter, false⟩⟩
        ⟨"tcp", "logs.example.com:6514", "10s",
          some ⟨"", "/etc/zrepl/client.crt", "/etc/zrepl/client.key"⟩⟩
        10000000000 rfl (by rfl)).2
      ⟨"", "/etc/zrepl/client.crt", "/etc/zrepl/client.key"⟩
      ⟨"/etc/zrepl/client.crt+/etc/zrepl/client.key"⟩ rfl (by rfl)).1 rfl).1
      ⟨["system-root"]⟩ rfl,
   (((parseTCPOutlet_tls sampleEnv (tcpTLSEntry (some "/etc/zrepl/ca.pem"))
        ⟨Level.Info, ⟨FormatterType.JSONFormatter, false⟩⟩
        ⟨"tcp", "logs.example.com:6514", "10s",
          some ⟨"/etc/zrepl/ca.pem", "/etc/zrepl/client.crt", "/etc/zrepl/client.key"⟩⟩
        10000000000 rfl (by rfl)).2
      ⟨"/etc/zrepl/ca.pem", "/etc/zrepl/client.crt", "/etc/zrepl/client.key"⟩
      ⟨"/etc/zrepl/client.crt+/etc/zrepl/client.key"⟩ rfl (by rfl)).2 (by decide)).2.2
      "ca-1" (by rfl) (by decide),
   (((parseTCPOutlet_tls sampleEnv (tcpTLSEntry (some "/etc/zrepl/missing.pem"))
        ⟨Level.Info, ⟨FormatterType.JSONFormatter, false⟩⟩
        ⟨"tcp", "logs.example.com:6514", "10s",
          some ⟨"/etc/zrepl/missing.pem", "/etc/zrepl/client.crt", "/etc/zrepl/client.key"⟩⟩
        10000000000 rfl (by rfl)).2
      ⟨"/etc/zrepl/missing.pem", "/etc/zrepl/client.crt", "/etc/zrepl/client.key"⟩
      ⟨"/etc/zrepl/client.crt+/etc/zrepl/client.key"⟩ rfl (by rfl)).2 (by decide)).1
      "open /etc/zrepl/missing.pem: no such file or directory" (by rfl)⟩

/-! ## Job identifiers -/

theorem utf8ByteSize_eq_zero_iff (s : String) : s.utf8ByteSize = 0 ↔ s = "" := by
  constructor
  · intro h
    cases s with
    | mk cs =>
      cases cs with
      | nil => rfl
      | cons c cs =>
        exfalso
        simp only [String.utf8ByteSize, String.utf8ByteSize.go] at h
        have := Char.utf8Size_pos c
        omega
  · intro h
    subst h
    rfl

/-- The three outcomes of `MakeJobID`, by its two tests. -/
theorem MakeJobID_cases (N : String → Option String) (s : String) :
    (s = "" ∧ MakeJobID N s = (⟨""⟩, some "must not be empty string")) ∨
    (s ≠ "" ∧ ∃ e, N s = some e ∧
      MakeJobID N s = (⟨""⟩, some ("must be usable in a ZFS dataset path: " ++ e))) ∨
    (s ≠ "" ∧ N s = none ∧ MakeJobID N s = (⟨s⟩, none)) := by
  by_cases hs : s = ""
  · left
    refine ⟨hs, ?_⟩
    subst hs
    rfl
  · right
    have hlen : ¬ s.utf8ByteSize = 0 := fun h => hs ((utf8ByteSize_eq_zero_iff s).1 h)
    cases hn : N s with
    | some e =>
      left
      exact ⟨hs, e, rfl, by simp only [MakeJobID, if_neg hlen, hn]⟩
    | none =>
      right
      exact ⟨hs, rfl, by simp only [MakeJobID, if_neg hlen, hn]⟩

/-- C14: `MakeJobID(s)` returns a nil error exactly when `s` is non-empty and
`NewDatasetPath(s)` returns a nil error; `MakeJobID("")` fails; and when `MakeJobID(s)`
succeeds with identifier `j`, `j.String()` returns `s` and `j.MustValidate()` returns,
neither of them panicking. -/
theorem MakeJobID_round_trip (N : String → Option String) (s : String) :
    ((MakeJobID N s).2 = none ↔ (s ≠ "" ∧ N s = none)) ∧
    (MakeJobID N "").2 = some "must not be empty string" ∧
    ((MakeJobID N s).2 = none →
      (MakeJobID N s).1.String = .returned s ∧
      (MakeJobID N s).1.MustValidate = .returned ()) := by
  have hstr : s ≠ "" → JobID.String ⟨s⟩ = .returned s := by
    intro hs
    simp only [JobID.String, if_neg hs]
  refine ⟨?_, rfl, ?_⟩
  · rcases MakeJobID_cases N s with ⟨hs, h⟩ | ⟨hs, e, hn, h⟩ | ⟨hs, hn, h⟩
    · rw [h]
      constructor
      · intro hx; cases hx
      · intro hx; exact absurd hs hx.1
    · rw [h, hn]
      constructor
      · intro hx; cases hx
      · intro hx; cases hx.2
    · rw [h]
      exact ⟨fun _ => ⟨hs, hn⟩, fun _ => rfl⟩
  · intro hok
    rcases MakeJobID_cases N s with ⟨-, h⟩ | ⟨-, e, -, h⟩ | ⟨hs, -, h⟩
    · rw [h] at hok; cases hok
    · rw [h] at hok; cases hok
    · rw [h]
      refine ⟨hstr hs, ?_⟩
      simp only [JobID.MustValidate, hstr hs]

theorem MakeJobID_round_trip_witness :
    MakeJobID sampleNewDatasetPath "tank/backups" = (⟨"tank/backups"⟩, none) ∧
    (MakeJobID sampleNewDatasetPath "tank/backups").1.String = .returned "tank/backups" ∧
    (MakeJobID sampleNewDatasetPath "tank/backups").1.MustValidate = .returned () :=
  ⟨by decide,
   ((MakeJobID_round_trip sampleNewDatasetPath "tank/backups").2.2 (by decide)).1,
   ((MakeJobID_round_trip sampleNewDatasetPath "tank/backups").2.2 (by decide)).2⟩

/-- C15: on the zero-value `JobID`, `String()` and `MustValidate()` panic with
"use of uninitialized JobID" and return nothing, the empty string included.  `MakeJobID`
has no panic: for every input it returns both results, and for every invalid input, the
empty string or a string `NewDatasetPath` rejects, the error is non-nil and the identifier
is the zero value. -/
theorem JobID_zero_value_panics (N : String → Option String) (s : String) :
    JobID.String ⟨""⟩ = .panicked "use of uninitialized JobID" ∧
    JobID.MustValidate ⟨""⟩ = .panicked "use of uninitialized JobID" ∧
    (∀ r : String, JobID.String ⟨""⟩ ≠ .returned r) ∧
    ((s = "" ∨ N s ≠ none) →
      ∃ err, MakeJobID N s = (⟨""⟩, some err)) ∧
    (∀ err, (MakeJobID N s).2 = some err → (MakeJobID N s).1 = ⟨""⟩) := by
  refine ⟨rfl, rfl, ?_, ?_, ?_⟩
  · intro r h
    cases h
  · intro hinv
    rcases MakeJobID_cases N s with ⟨-, h⟩ | ⟨-, e, -, h⟩ | ⟨hs, hn, -⟩
    · exact ⟨_, h⟩
    · exact ⟨_, h⟩
    · rcases hinv with hx | hx
      · exact absurd hx hs
      · exact absurd hn hx
  · intro err herr
    rcases MakeJobID_cases N s with ⟨-, h⟩ | ⟨-, e, -, h⟩ | ⟨-, -, h⟩
    · rw [h]
    · rw [h]
    · rw [h] at herr; cases herr

theorem JobID_zero_value_panics_witness :
    sampleNewDatasetPath "tank@monday" ≠ none ∧
    ∃ err, MakeJobID sampleNewDatasetPath "tank@monday" = (⟨""⟩, some err) :=
  ⟨by decide,
   (JobID_zero_value_panics sampleNewDatasetPath "tank@monday").2.2.2.1
     (Or.inr (by decide))⟩

/-! ## Order of the checks -/

theorem cannot_parse_outlet_ne (x t : String) (ht : t.data[3]? = some ' ') :
    "cannot parse outlet #" ++ x ≠ t := by
  intro h
  have h3 : ("cannot parse outlet #" ++ x).data[3]? = some 'n' := by
    rw [String.data_append]
    rfl
  rw [h, ht] at h3
  exact absurd h3 (by decide)

/-- C17: the cardinality checks of `parseLogging` come after the loop over all entries.
When the k-th entry (counting from 0) of a decoded list is the first one on which
`parseOutlet` fails, with error `e`, `parseLogging` fails with "cannot parse outlet #k: e"
and with neither cardinality error, however many stdout and syslog entries the list holds
and wherever they stand, before or after the k-th entry. -/
theorem parseLogging_parse_error_first (env : Env) (i : Value) (xs : List Value) (k : Nat)
    (le : Value) (e : String)
    (hdec : env.decodeList i = .ok (some xs)) (hk : xs[k]? = some le)
    (hfirst : ∀ j lej, j < k → xs[j]? = some lej → succeeds (parseOutlet env lej) = true)
    (hfail : parseOutlet env le = .error e) :
    parseLogging env i = (none, some ("cannot parse outlet #" ++ toString k ++ ": " ++ e)) ∧
    parseLogging env i ≠ (none, some "can only define one 'stdout' outlet") ∧
    parseLogging env i ≠ (none, some "can only define one 'syslog' outlet") := by
  have hlen : ¬ xs.length = 0 := by
    intro h0
    rw [List.length_eq_zero.1 h0] at hk
    simp at hk
  have hmain : parseLogging env i =
      (none, some ("cannot parse outlet #" ++ toString k ++ ": " ++ e)) := by
    unfold parseLogging
    simp only [hdec, sliceLen, sliceElems, if_neg hlen]
    rw [parseLoggingLoop_first_failure env xs k 0 _ le e hk hfirst hfail]
    simp [errorsWrap]
  have hne : ∀ t : String, t.data[3]? = some ' ' →
      parseLogging env i ≠ (none, some t) := by
    intro t ht hx
    rw [hmain] at hx
    have hs := Option.some.inj (Prod.mk.inj hx).2
    rw [String.append_assoc, String.append_assoc] at hs
    exact cannot_parse_outlet_ne _ t ht hs
  exact ⟨hmain, hne _ rfl, hne _ rfl⟩

theorem parseLogging_parse_error_first_witness :
    countType sampleEnv "stdout" twoStdoutThenUnparsable = 2 ∧
    parseLogging sampleEnv (.list twoStdoutThenUnparsable) =
      (none, some "cannot parse outlet #2: unknown outlet type 'udp'") ∧
    parseLogging sampleEnv (.list twoStdoutThenUnparsable) ≠
      (none, some "can only define one 'stdout' outlet") := by
  have h := parseLogging_parse_error_first sampleEnv (.list twoStdoutThenUnparsable)
    twoStdoutThenUnparsable 2 (entry "udp" "warn" "human") "unknown outlet type 'udp'"
    rfl rfl
    (by
      intro j lej hj hx
      have hcases : j = 0 ∨ j = 1 := by omega
      rcases hcases with h0 | h1
      · subst h0
        simp only [twoStdoutThenUnparsable, List.getElem?_cons_zero, Option.some.injEq] at hx
        subst hx
        decide
      · subst h1
        simp only [twoStdoutThenUnparsable, List.getElem?_cons_succ,
          List.getElem?_cons_zero, Option.some.injEq] at hx
        subst hx
        decide)
    rfl
  exact ⟨by decide, h.1, h.2.1⟩

/-- C18: `parseOutlet` checks in a fixed order and the first failing check gives the
error.  For an entry that decodes: an empty common field gives the combined error; with
the three fields present, a level name `logger.ParseLevel` rejects with `e` gives
"cannot parse 'level' field: e", whatever the format and type names are; a valid level with
a format name `parseLogFormat` rejects gives "cannot parse: invalid log format: '<name>'",
whatever the type name is; and unless both level and format are valid the result does not
depend on anything the builders consult, so no builder takes part in it. -/
theorem parseOutlet_validation_order (env : Env) (i : Value) (inp : OutletIn)
    (hd : env.decodeOutletIn i = .ok inp) :
    ((inp.Outlet = "" ∨ inp.Level = "" ∨ inp.Format = "") →
      parseOutlet env i = .error "must specify 'outlet', 'level' and 'format' field") ∧
    (inp.Outlet ≠ "" → inp.Level ≠ "" → inp.Format ≠ "" →
      (∀ e, env.ParseLevel inp.Level = .error e →
        parseOutlet env i = .error ("cannot parse 'level' field: " ++ e)) ∧
      (∀ l e, env.ParseLevel inp.Level = .ok l →
        parseLogFormat (.str inp.Format) = .error e →
        e = "invalid log format: '" ++ inp.Format ++ "'" ∧
        parseOutlet env i = .error ("cannot parse: " ++ e))) ∧
    (∀ env2, sameUpToBuilders env env2 →
      (succeeds (env.ParseLevel inp.Level) = false ∨
        succeeds (parseLogFormat (.str inp.Format)) = false) →
      parseOutlet env2 i = parseOutlet env i) := by
  have hlit1 : "cannot parse 'level' field" ++ ": " = "cannot parse 'level' field: " := by
    decide
  have hlit2 : "cannot parse" ++ ": " = "cannot parse: " := by decide
  refine ⟨?_, ?_, ?_⟩
  · intro h
    unfold parseOutlet
    simp only [hd, if_pos h]
  · intro h1 h2 h3
    have hempty : ¬ (inp.Outlet = "" ∨ inp.Level = "" ∨ inp.Format = "") := by
      rintro (hx | hx | hx)
      · exact h1 hx
      · exact h2 hx
      · exact h3 hx
    refine ⟨?_, ?_⟩
    · intro e he
      unfold parseOutlet
      simp only [hd, if_neg hempty, he, errorsWrap, hlit1]
    · intro l e hl hf
      refine ⟨?_, ?_⟩
      · unfold parseLogFormat at hf
        simp only at hf
        split_ifs at hf
        exact (Except.error.inj hf).symm
      · unfold parseOutlet
        simp only [hd, if_neg hempty, hl, hf, errorsWrap, hlit2]
  · intro env2 hsame hinv
    obtain ⟨hsd, hsl⟩ := hsame
    unfold parseOutlet
    rw [hsd, hsl]
    simp only [hd]
    by_cases hempty : inp.Outlet = "" ∨ inp.Level = "" ∨ inp.Format = ""
    · simp only [if_pos hempty]
    · simp only [if_neg hempty]
      cases hl : env.ParseLevel inp.Level with
      | error e => rfl
      | ok l =>
        cases hf : parseLogFormat (.str inp.Format) with
        | error e => rfl
        | ok f =>
          rw [hl, hf] at hinv
          simp [succeeds] at hinv

theorem parseOutlet_validation_order_witness :
    parseOutlet sampleEnv (entry "udp" "loud" "yaml") =
      .error ("cannot parse 'level' field: " ++ "unknown level 'loud'") ∧
    parseOutlet sampleEnv (entry "udp" "warn" "yaml") =
      .error ("cannot parse: " ++ "invalid log format: 'yaml'") :=
  ⟨((parseOutlet_validation_order sampleEnv (entry "udp" "loud" "yaml")
      ⟨"udp", "loud", "yaml"⟩ rfl).2.1 (by decide) (by decide) (by decide)).1
      "unknown level 'loud'" rfl,
   (((parseOutlet_validation_order sampleEnv (entry "udp" "warn" "yaml")
      ⟨"udp", "warn", "yaml"⟩ rfl).2.1 (by decide) (by decide) (by decide)).2
      Level.Warn "invalid log format: 'yaml'" rfl rfl).2⟩

/-- C19: `parseLogging` is all-or-nothing.  For every input exactly one of its two results
is nil: either the configuration is non-nil and the error nil, or the configuration is nil
and the error non-nil.  In particular, when the entries `pre` before the first failing
entry have parsed, the loop has by then built a registry holding one outlet for each of
them, and the configuration returned is nil all the same. -/
theorem parseLogging_all_or_nothing (env : Env) (i : Value) :
    ((∃ c, parseLogging env i = (some c, none)) ∨
      (∃ err, parseLogging env i = (none, some err))) ∧
    (∀ (pre post : List Value) (le : Value) (e : String),
      env.decodeList i = .ok (some (pre ++ le :: post)) → allParse env pre →
      parseOutlet env le = .error e →
      (∃ st, parseLoggingLoop env pre 0 ⟨⟨NewOutlets⟩, 0, 0⟩ = .ok st ∧
        st.c.Outlets.entries.length = pre.length) ∧
      (parseLogging env i).1 = none ∧ (parseLogging env i).2 ≠ none) := by
  have hdich : (∃ c, parseLogging env i = (some c, none)) ∨
      (∃ err, parseLogging env i = (none, some err)) := by
    unfold parseLogging
    cases hdec : env.decodeList i with
    | error e => exact Or.inr ⟨_, rfl⟩
    | ok asList =>
      simp only
      by_cases hlen : sliceLen asList = 0
      · rw [if_pos hlen]
        exact Or.inl ⟨_, rfl⟩
      · rw [if_neg hlen]
        cases hloop : parseLoggingLoop env (sliceElems asList) 0 ⟨⟨NewOutlets⟩, 0, 0⟩ with
        | error err => exact Or.inr ⟨_, rfl⟩
        | ok st =>
          simp only
          by_cases h1 : st.syslogOutlets > 1
          · rw [if_pos h1]
            exact Or.inr ⟨_, rfl⟩
          · rw [if_neg h1]
            by_cases h2 : st.stdoutOutlets > 1
            · rw [if_pos h2]
              exact Or.inr ⟨_, rfl⟩
            · rw [if_neg h2]
              exact Or.inl ⟨_, rfl⟩
  refine ⟨hdich, ?_⟩
  intro pre post le e hdec hpre hfail
  refine ⟨⟨_, parseLoggingLoop_allParse env pre hpre 0 _, ?_⟩, ?_⟩
  · simp [NewOutlets, parsedPairs_length env pre hpre]
  · have hlen : ¬ (pre ++ le :: post).length = 0 := by simp
    have hk : (pre ++ le :: post)[pre.length]? = some le := by
      rw [List.getElem?_append_right (Nat.le_refl _)]
      simp
    have hfirst : ∀ j lej, j < pre.length → (pre ++ le :: post)[j]? = some lej →
        succeeds (parseOutlet env lej) = true := by
      intro j lej hj hx
      rw [List.getElem?_append_left hj] at hx
      exact hpre lej (List.getElem?_mem hx)
    have hres : parseLogging env i = (none, some (errorsWrap e
        ("cannot parse outlet #" ++ toString (0 + pre.length)))) := by
      unfold parseLogging
      simp only [hdec, sliceLen, sliceElems, if_neg hlen]
      rw [parseLoggingLoop_first_failure env _ pre.length 0 _ le e hk hfirst hfail]
    rw [hres]
    exact ⟨rfl, by simp⟩

theorem parseLogging_all_or_nothing_witness :
    (∃ st, parseLoggingLoop sampleEnv
        [entry "stdout" "warn" "human", tcpEntry "info" "json" "10s"] 0
        ⟨⟨NewOutlets⟩, 0, 0⟩ = .ok st ∧
      st.c.Outlets.entries.length = 2) ∧
    (parseLogging sampleEnv (.list [entry "stdout" "warn" "human",
      tcpEntry "info" "json" "10s", entry "udp" "warn" "human"])).1 = none :=
  ⟨((parseLogging_all_or_nothing sampleEnv (.list [entry "stdout" "warn" "human",
      tcpEntry "info" "json" "10s", entry "udp" "warn" "human"])).2
      [entry "stdout" "warn" "human", tcpEntry "info" "json" "10s"] []
      (entry "udp" "warn" "human") "unknown outlet type 'udp'" rfl (by decide) rfl).1,
   ((parseLogging_all_or_nothing sampleEnv (.list [entry "stdout" "warn" "human",
      tcpEntry "info" "json" "10s", entry "udp" "warn" "human"])).2
      [entry "stdout" "warn" "human", tcpEntry "info" "json" "10s"] []
      (entry "udp" "warn" "human") "unknown outlet type 'udp'" rfl (by decide) rfl).2.1⟩

end Zrepl
